import Mathlib

/-!
Verification of the OCISessionManager repository against its specification.

The Python sources are shallowly embedded as executable Lean definitions:

* `run_ssh` / `connect` model the worker loop of `SSHConnection.connect`
  (src/src/ocisessionmanager/modules/ssh_connection.py) and the identical
  loop of `OCIBastionSessions._connect`
  (src/src/ocisessionmanager/modules/oci_tools/oci_bastion_session.py).
  The environment supplies one `LaunchOutcome` per subprocess launch
  (its captured stderr, or an exception); `should_reconnect` is held
  constant during a run, as the claims under study assume no concurrent
  `disconnect()`.  `RunResult.sleeps` counts the `time.sleep(check_interval)`
  calls executed between attempts.
* `setConnected` models the `connected` property setter shared verbatim by
  `SSHConnection` and `OCIBastionSessions`: a state holds the `_connected`
  flag and the number of `_notify_callbacks()` invocations so far.
-/

/-- Outcome of one `subprocess.Popen` + `communicate()` launch: the process
exits with the given stderr text, or the launch raises an exception. -/
inductive LaunchOutcome where
  | exited (stderr : String)
  | exc
deriving Repr, DecidableEq

/-- Why the worker loop of `run_ssh` stopped. -/
inductive StopReason where
  /-- the `break` taken when `should_reconnect` is false or the error output
  holds the permission-denial signature; `retry_count` is reset to 0 there. -/
  | broke
  /-- the `break` taken when `retry_count` exceeds `max_retries`. -/
  | budget
  /-- the `while` guard itself was false when checked. -/
  | guardFalse
  /-- the scripted environment ran out of launch outcomes (the model stops;
  the real loop would launch again). -/
  | starved
deriving Repr, DecidableEq

/-- Observable summary of one worker-loop run: number of launches performed,
number of inter-attempt sleeps, the final `_retry_count`, and why it ended. -/
structure RunResult where
  attempts : Nat
  sleeps : Nat
  retry_count : Nat
  reason : StopReason
deriving Repr, DecidableEq

/-- Predicate `leadsList p s`: true when `p` is an initial run of `s`. -/
def leadsList : List Char → List Char → Bool
  | [], _ => true
  | _ :: _, [] => false
  | p :: ps, c :: cs => p == c && leadsList ps cs

/-- Predicate `subList p s`: true when `p` occurs contiguously inside `s`. -/
def subList (p : List Char) : List Char → Bool
  | [] => p.isEmpty
  | c :: cs => leadsList p (c :: cs) || subList p cs

/-- Python's `pat in s` substring test. -/
def strContainsSub (s pat : String) : Bool := subList pat.data s.data

/-- The `run_ssh` worker loop of `SSHConnection.connect` /
`OCIBastionSessions._connect`.  Arguments `retry_count`, `outs`, `attempts`,
`sleeps` are the loop state: `_retry_count`, the remaining scripted launch
outcomes, and the two event counters. -/
def run_ssh (max_retries : Nat) (should_reconnect : Bool) :
    Nat → List LaunchOutcome → Nat → Nat → RunResult
  | retry_count, outs, attempts, sleeps =>
    if ¬ (should_reconnect ∧ retry_count ≤ max_retries) then
      ⟨attempts, sleeps, retry_count, .guardFalse⟩
    else
      match outs with
      | [] => ⟨attempts, sleeps, retry_count, .starved⟩
      | o :: rest =>
        let error_message : String :=
          match o with
          | .exited stderr => if stderr ≠ "" then stderr else ""
          | .exc => ""
        let rc1 : Nat :=
          match o with
          | .exited stderr => if stderr ≠ "" then retry_count else 0
          | .exc => retry_count
        if ¬ should_reconnect ∨ strContainsSub error_message "Permission denied" then
          ⟨attempts + 1, sleeps, 0, .broke⟩
        else if rc1 + 1 > max_retries then
          ⟨attempts + 1, sleeps, rc1 + 1, .budget⟩
        else
          run_ssh max_retries should_reconnect (rc1 + 1) rest (attempts + 1) (sleeps + 1)

/-- Models `SSHConnection.connect`: sets `_should_reconnect = True` and spawns
`run_ssh` with the instance's current `_retry_count` (it does not reset it). -/
def connect (max_retries retry_count : Nat) (outs : List LaunchOutcome) : RunResult :=
  run_ssh max_retries true retry_count outs 0 0

/-- State of the `connected` property: the `_connected` flag and how many
times `_notify_callbacks()` has run. -/
structure ConnState where
  connected : Bool
  notifications : Nat
deriving Repr, DecidableEq

/-- The `connected` setter of `SSHConnection` and `OCIBastionSessions`:
returns unchanged when the assigned value equals the current one, otherwise
stores it and notifies subscribers exactly once. -/
def setConnected (st : ConnState) (value : Bool) : ConnState :=
  if st.connected = value then st
  else { connected := value, notifications := st.notifications + 1 }

/-- Modelled from the spec's words for claim C10: the number of actual value
transitions performed by a sequence of assignments starting from `current`. -/
def changeCount (current : Bool) : List Bool → Nat
  | [] => 0
  | v :: vs => if v = current then changeCount current vs else changeCount v vs + 1

/-- State of the Token Manager's renewal scheduling (`OCISessionManager`):
`auto_renew` is `_auto_renew`; `timerRef` is the id held by `_timer`;
`outstanding` lists the ids of timers that were started and neither cancelled
nor fired; `nextId` generates fresh timer ids; `renewals` counts the
invocations of the token-renewal CLI command (`_renew_security_token`). -/
structure TMState where
  auto_renew : Bool
  timerRef : Option Nat
  outstanding : List Nat
  nextId : Nat
  renewals : Nat
deriving Repr, DecidableEq

/-- Models `OCISessionManager._schedule_token_renewal`: allocates a new
`threading.Timer`, starts it, and overwrites `_timer` with it.  The previous
timer, if any, is not cancelled. -/
def schedule_token_renewal (st : TMState) : TMState :=
  { st with timerRef := some st.nextId
            outstanding := st.outstanding ++ [st.nextId]
            nextId := st.nextId + 1 }

/-- Models `OCISessionManager.start`: enables auto-renew, then either renews
immediately (token expired — one CLI invocation, no timer scheduled) or
schedules a renewal timer.  `expired` is the value `self.expired` evaluates
to at this call; `renew_ok` is the CLI outcome (unused when not expired). -/
def start (expired renew_ok : Bool) (st : TMState) : TMState :=
  let st1 := { st with auto_renew := true }
  if expired then { st1 with renewals := st1.renewals + 1 }
  else schedule_token_renewal st1

/-- Models `OCISessionManager.stop`: disables auto-renew and cancels the timer
currently referenced by `_timer` (a no-op if it already fired or was
cancelled); the reference itself is not cleared. -/
def stop (st : TMState) : TMState :=
  let st1 := { st with auto_renew := false }
  match st1.timerRef with
  | some id => { st1 with outstanding := st1.outstanding.erase id }
  | none => st1

/-- Models `OCISessionManager._renew_token` (the timer callback body): only when
`_auto_renew` is set does it invoke the renewal command, and on success it
schedules the next timer. -/
def renew_token (renew_ok : Bool) (st : TMState) : TMState :=
  if st.auto_renew then
    let st1 := { st with renewals := st.renewals + 1 }
    if renew_ok then schedule_token_renewal st1 else st1
  else st

/-- Firing event for timer `ev.1` with renewal outcome `ev.2`: an outstanding
timer leaves the outstanding set and runs `_renew_token`; a cancelled or
unknown timer never fires. -/
def fireTimer (st : TMState) (ev : Nat × Bool) : TMState :=
  if ev.1 ∈ st.outstanding then
    renew_token ev.2 { st with outstanding := st.outstanding.erase ev.1 }
  else st

/-- Python `dict` lookup for an association list built by successive inserts:
the last binding of a key wins. -/
def lookupLast {α : Type} : List (String × α) → String → Option α
  | [], _ => none
  | (k', v) :: rest, k =>
    match lookupLast rest k with
    | some r => some r
    | none => if k' = k then some v else none

/-- Errors `oci.config.from_file` can raise while reading the profile. -/
inductive LoadError where
  | configFileNotFound
  | profileNotFound
deriving Repr, DecidableEq

/-- Environment for `OCISessionManager` initialization: whether the OCI CLI
is installed, the outcome of `oci_config.from_file`, and the contents of the
file at a given path (`none` meaning the open/read raises). -/
structure LoadEnv where
  cli_installed : Bool
  from_file : Except LoadError (List (String × String))
  file_read : String → Option String

/-- The fields of `OCISessionManager` that `_load_profile` and
`_load_security_token` touch. -/
structure MgrState where
  config : List (String × String)
  security_token : Option String
deriving Repr, DecidableEq

/-- The `config` property: `_config` with `_config_overrides` applied on top
(`dict.update`, so overrides win under `lookupLast`). -/
def mergedConfig (overrides : List (String × String)) (st : MgrState) :
    List (String × String) :=
  st.config ++ overrides

/-- Models `OCISessionManager._load_security_token`: reads
`self.config.get("security_token_file")`; a falsy value raises `ValueError`,
which the function's own `except` swallows, leaving `_security_token = None`;
a read error is likewise swallowed. -/
def load_security_token (env : LoadEnv) (overrides : List (String × String))
    (st : MgrState) : MgrState :=
  match lookupLast (mergedConfig overrides st) "security_token_file" with
  | some token_file =>
    if token_file ≠ "" then
      match env.file_read token_file with
      | some contents => { st with security_token := some contents.trim }
      | none => { st with security_token := none }
    else { st with security_token := none }
  | none => { st with security_token := none }

/-- Models `OCISessionManager._load_profile`: on `ConfigFileNotFound` or
`ProfileNotFound` from `from_file`, the `except` block only logs — the state
is left as it was and no error propagates. -/
def load_profile (env : LoadEnv) (overrides : List (String × String))
    (st : MgrState) : MgrState :=
  match env.from_file with
  | .ok cfg => load_security_token env overrides { st with config := cfg }
  | .error _ => st

/-- Models `OCISessionManager.__init__`: raises `EnvironmentError` only when the OCI
CLI is missing; otherwise it runs `_load_profile` and always completes. -/
def initManager (env : LoadEnv) (overrides : List (String × String)) :
    Except Unit MgrState :=
  if env.cli_installed then .ok (load_profile env overrides ⟨[], none⟩)
  else .error ()

/-- Python `str.split(".")`: splits on every dot, keeping empty fields. -/
def splitDot : List Char → List (List Char)
  | [] => [[]]
  | c :: cs =>
    if c = '.' then [] :: splitDot cs
    else
      match splitDot cs with
      | t :: ts => (c :: t) :: ts
      | [] => [[c]]

/-- The padding step of `_get_token_expiration_delay`: the code appends the
two characters `"=="` to the token's middle segment
(`self._security_token.split(".")[1] + "=="`). -/
def padSegment (s : String) : String := s ++ "=="

/-- Character translation done by `base64.urlsafe_b64decode` before decoding:
`-` becomes `+` and `_` becomes `/`. -/
def urlTr (c : Char) : Char :=
  if c = '-' then '+' else if c = '_' then '/' else c

def urlsafeTranslate (s : String) : String := String.mk (s.data.map urlTr)

/-- Value of a character in the standard base64 alphabet, `none` for
non-alphabet characters (which the non-strict decoder skips). -/
def b64Val (c : Char) : Option Nat :=
  if 'A' ≤ c ∧ c ≤ 'Z' then some (c.toNat - 'A'.toNat)
  else if 'a' ≤ c ∧ c ≤ 'z' then some (c.toNat - 'a'.toNat + 26)
  else if '0' ≤ c ∧ c ≤ '9' then some (c.toNat - '0'.toNat + 52)
  else if c = '+' then some 62
  else if c = '/' then some 63
  else none

/-- CPython's `binascii.a2b_base64` in non-strict mode, as called by
`base64.b64decode(..., validate=False)`: alphabet characters feed 6-bit
groups into the output byte stream (`quad_pos`, `leftchar` track the current
quad); other characters are skipped; a pad `=` seen at quad position ≥ 2 that
completes the quad (two pads at position 2, one at position 3) ends the input
successfully, while pads at position 0 or 1 are ignored; input ending at a
nonzero quad position is an error. -/
def a2bBase64 : List Char → Nat → Nat → Nat → List Nat → Option (List Nat)
  | [], quad_pos, _, _, acc => if quad_pos = 0 then some acc.reverse else none
  | c :: rest, quad_pos, leftchar, pads, acc =>
    if c = '=' then
      if 2 ≤ quad_pos then
        if 4 ≤ quad_pos + (pads + 1) then some acc.reverse
        else a2bBase64 rest quad_pos leftchar (pads + 1) acc
      else a2bBase64 rest quad_pos leftchar pads acc
    else
      match b64Val c with
      | none => a2bBase64 rest quad_pos leftchar pads acc
      | some v =>
        if quad_pos = 0 then a2bBase64 rest 1 v 0 acc
        else if quad_pos = 1 then
          a2bBase64 rest 2 (v % 16) 0 ((leftchar * 4 + v / 16) :: acc)
        else if quad_pos = 2 then
          a2bBase64 rest 3 (v % 4) 0 ((leftchar * 16 + v / 4) :: acc)
        else
          a2bBase64 rest 0 0 0 ((leftchar * 64 + v) :: acc)

/-- Models `base64.urlsafe_b64decode`. -/
def urlsafe_b64decode (s : String) : Option (List Nat) :=
  a2bBase64 (urlsafeTranslate s).data 0 0 0 []

/-- Strict UTF-8 decoding of a byte list (Python `bytes.decode()`): rejects
truncated sequences, overlong forms, surrogates and out-of-range points. -/
def utf8Decode : List Nat → Option (List Char)
  | [] => some []
  | b0 :: rest =>
    if b0 < 0x80 then
      (utf8Decode rest).map (Char.ofNat b0 :: ·)
    else if 0xC2 ≤ b0 ∧ b0 ≤ 0xDF then
      match rest with
      | b1 :: rest2 =>
        if 0x80 ≤ b1 ∧ b1 ≤ 0xBF then
          (utf8Decode rest2).map (Char.ofNat ((b0 - 0xC0) * 64 + (b1 - 0x80)) :: ·)
        else none
      | [] => none
    else if 0xE0 ≤ b0 ∧ b0 ≤ 0xEF then
      match rest with
      | b1 :: b2 :: rest2 =>
        if (if b0 = 0xE0 then 0xA0 else 0x80) ≤ b1 ∧
            b1 ≤ (if b0 = 0xED then 0x9F else 0xBF) ∧ 0x80 ≤ b2 ∧ b2 ≤ 0xBF then
          (utf8Decode rest2).map
            (Char.ofNat ((b0 - 0xE0) * 4096 + (b1 - 0x80) * 64 + (b2 - 0x80)) :: ·)
        else none
      | _ => none
    else if 0xF0 ≤ b0 ∧ b0 ≤ 0xF4 then
      match rest with
      | b1 :: b2 :: b3 :: rest2 =>
        if (if b0 = 0xF0 then 0x90 else 0x80) ≤ b1 ∧
            b1 ≤ (if b0 = 0xF4 then 0x8F else 0xBF) ∧ 0x80 ≤ b2 ∧ b2 ≤ 0xBF ∧
            0x80 ≤ b3 ∧ b3 ≤ 0xBF then
          (utf8Decode rest2).map
            (Char.ofNat ((b0 - 0xF0) * 262144 + (b1 - 0x80) * 4096 +
              (b2 - 0x80) * 64 + (b3 - 0x80)) :: ·)
        else none
      | _ => none
    else none

/-- Exact value of a JSON numeric literal as the unreduced fraction
`n / d`, where `d` is a positive power of 10.  CPython parses non-integer
literals to binary floats; that rounding is not modelled. -/
structure PyNum where
  n : Int
  d : Nat
deriving Repr, DecidableEq

/-- The rational value of a parsed numeric literal. -/
def PyNum.toRat (x : PyNum) : Rat := mkRat x.n x.d

/-- Values `json.loads` can produce.  `nan` and `inf` cover the non-standard
`NaN` / `Infinity` / `-Infinity` literals Python's parser accepts by
default. -/
inductive JVal where
  | null
  | bool (b : Bool)
  | num (x : PyNum)
  | nan
  | inf (neg : Bool)
  | str (s : String)
  | arr (xs : List JVal)
  | obj (fields : List (String × JVal))

/-- Whitespace accepted by Python's JSON parser. -/
def isJsonWs (c : Char) : Bool := c = ' ' ∨ c = '\t' ∨ c = '\n' ∨ c = '\r'

def skipWs : List Char → List Char
  | [] => []
  | c :: cs => if isJsonWs c then skipWs cs else c :: cs

/-- Consumes list `p` from the head of the input, or fails. -/
def dropRun : List Char → List Char → Option (List Char)
  | [], s => some s
  | _ :: _, [] => none
  | p :: ps, c :: cs => if p = c then dropRun ps cs else none

def takeDigits : List Char → List Char × List Char
  | [] => ([], [])
  | c :: cs =>
    if c.isDigit then
      match takeDigits cs with
      | (ds, r) => (c :: ds, r)
    else ([], c :: cs)

def digitsToNat (ds : List Char) : Nat :=
  ds.foldl (fun a c => a * 10 + (c.toNat - '0'.toNat)) 0

/-- Fraction and exponent parts of a JSON number, given its sign and integer
part; a dot or an `e` not followed by digits is left unconsumed, as in
Python's `NUMBER_RE` where those groups are optional. -/
def parseNumAfterInt (neg : Bool) (ip : Nat) (s : List Char) : PyNum × List Char :=
  let fracSplit : List Char × List Char :=
    match s with
    | '.' :: cs =>
      match takeDigits cs with
      | ([], _) => ([], s)
      | (ds, r) => (ds, r)
    | _ => ([], s)
  let fds := fracSplit.1
  let s1 := fracSplit.2
  let expSplit : Option (Bool × List Char) × List Char :=
    match s1 with
    | e :: '+' :: cs2 =>
      if e = 'e' ∨ e = 'E' then
        match takeDigits cs2 with
        | ([], _) => (none, s1)
        | (ds, r) => (some (true, ds), r)
      else (none, s1)
    | e :: '-' :: cs2 =>
      if e = 'e' ∨ e = 'E' then
        match takeDigits cs2 with
        | ([], _) => (none, s1)
        | (ds, r) => (some (false, ds), r)
      else (none, s1)
    | e :: cs2 =>
      if e = 'e' ∨ e = 'E' then
        match takeDigits cs2 with
        | ([], _) => (none, s1)
        | (ds, r) => (some (true, ds), r)
      else (none, s1)
    | [] => (none, s1)
  let mant : Nat := ip * 10 ^ fds.length + digitsToNat fds
  let mantI : Int := if neg then -(mant : Int) else (mant : Int)
  let v : PyNum :=
    match expSplit.1 with
    | none => ⟨mantI, 10 ^ fds.length⟩
    | some (pos, ds) =>
      if pos then ⟨mantI * 10 ^ digitsToNat ds, 10 ^ fds.length⟩
      else ⟨mantI, 10 ^ fds.length * 10 ^ digitsToNat ds⟩
  (v, expSplit.2)

/-- Parses a JSON number starting at its first digit (sign already seen):
a leading `0` takes no further integer digits, per the JSON grammar. -/
def parseNumberTail (neg : Bool) : List Char → Option (PyNum × List Char)
  | [] => none
  | c :: cs =>
    if c = '0' then some (parseNumAfterInt neg 0 cs)
    else if c.isDigit then
      match takeDigits cs with
      | (ds, r) => some (parseNumAfterInt neg (digitsToNat (c :: ds)) r)
    else none

def hexVal (c : Char) : Option Nat :=
  if c.isDigit then some (c.toNat - '0'.toNat)
  else if 'a' ≤ c ∧ c ≤ 'f' then some (c.toNat - 'a'.toNat + 10)
  else if 'A' ≤ c ∧ c ≤ 'F' then some (c.toNat - 'A'.toNat + 10)
  else none

def hex4 (h1 h2 h3 h4 : Char) : Option Nat :=
  match hexVal h1, hexVal h2, hexVal h3, hexVal h4 with
  | some a, some b, some c, some d => some (a * 4096 + b * 256 + c * 16 + d)
  | _, _, _, _ => none

/-- Parses the body of a JSON string after the opening quote (Python's
strict-mode `scanstring`): unescaped control characters are rejected; the
escapes are the standard eight plus `\uXXXX`, with surrogate pairs combined.
Lone surrogates, which Python's `str` can hold but Lean's `Char` cannot, are
modelled as a parse failure. -/
def parseStringTail : List Char → Option (List Char × List Char)
  | [] => none
  | '"' :: cs => some ([], cs)
  | '\\' :: 'u' :: h1 :: h2 :: h3 :: h4 :: cs =>
    match hex4 h1 h2 h3 h4 with
    | none => none
    | some u =>
      if 0xD800 ≤ u ∧ u ≤ 0xDBFF then
        match cs with
        | '\\' :: 'u' :: k1 :: k2 :: k3 :: k4 :: cs2 =>
          match hex4 k1 k2 k3 k4 with
          | some u2 =>
            if 0xDC00 ≤ u2 ∧ u2 ≤ 0xDFFF then
              (parseStringTail cs2).map fun (t, r) =>
                (Char.ofNat (0x10000 + (u - 0xD800) * 1024 + (u2 - 0xDC00)) :: t, r)
            else none
          | none => none
        | _ => none
      else if 0xDC00 ≤ u ∧ u ≤ 0xDFFF then none
      else (parseStringTail cs).map fun (t, r) => (Char.ofNat u :: t, r)
  | '\\' :: e :: cs =>
    let esc : Option Char :=
      if e = '"' then some '"'
      else if e = '\\' then some '\\'
      else if e = '/' then some '/'
      else if e = 'b' then some (Char.ofNat 8)
      else if e = 'f' then some (Char.ofNat 12)
      else if e = 'n' then some (Char.ofNat 10)
      else if e = 'r' then some (Char.ofNat 13)
      else if e = 't' then some (Char.ofNat 9)
      else none
    match esc with
    | some ch => (parseStringTail cs).map fun (t, r) => (ch :: t, r)
    | none => none
  | c :: cs =>
    if c.toNat < 0x20 then none
    else (parseStringTail cs).map fun (t, r) => (c :: t, r)

mutual

/-- Recursive-descent JSON value parser mirroring Python's `json` scanner;
`fuel` only guards termination and is chosen large enough never to run out
(every recursive call follows the consumption of at least one input
character, at most two calls deep). -/
def parseJVal : Nat → List Char → Option (JVal × List Char)
  | 0, _ => none
  | Nat.succ fuel, s =>
    match s with
    | [] => none
    | c :: cs =>
      if c = '{' then
        match skipWs cs with
        | '}' :: r => some (.obj [], r)
        | s1 => (parseObjItems fuel s1).map fun (fs, r) => (.obj fs, r)
      else if c = '[' then
        match skipWs cs with
        | ']' :: r => some (.arr [], r)
        | s1 => (parseArrItems fuel s1).map fun (vs, r) => (.arr vs, r)
      else if c = '"' then
        (parseStringTail cs).map fun (t, r) => (.str (String.mk t), r)
      else if c = 't' then (dropRun ['r', 'u', 'e'] cs).map ((.bool true, ·))
      else if c = 'f' then (dropRun ['a', 'l', 's', 'e'] cs).map ((.bool false, ·))
      else if c = 'n' then (dropRun ['u', 'l', 'l'] cs).map ((.null, ·))
      else if c = 'N' then (dropRun ['a', 'N'] cs).map ((.nan, ·))
      else if c = 'I' then
        (dropRun ['n', 'f', 'i', 'n', 'i', 't', 'y'] cs).map ((.inf false, ·))
      else if c = '-' then
        match cs with
        | 'I' :: cs2 =>
          (dropRun ['n', 'f', 'i', 'n', 'i', 't', 'y'] cs2).map ((.inf true, ·))
        | _ => (parseNumberTail true cs).map fun (q, r) => (.num q, r)
      else if c.isDigit then
        (parseNumberTail false (c :: cs)).map fun (q, r) => (.num q, r)
      else none

/-- Parses the members of a non-empty JSON object, positioned at the first
key's opening quote. -/
def parseObjItems : Nat → List Char → Option (List (String × JVal) × List Char)
  | 0, _ => none
  | Nat.succ fuel, s =>
    match s with
    | '"' :: cs =>
      match parseStringTail cs with
      | none => none
      | some (key, r1) =>
        match skipWs r1 with
        | ':' :: r3 =>
          match parseJVal fuel (skipWs r3) with
          | none => none
          | some (v, r4) =>
            match skipWs r4 with
            | ',' :: r6 =>
              match parseObjItems fuel (skipWs r6) with
              | none => none
              | some (fields, r7) => some ((String.mk key, v) :: fields, r7)
            | '}' :: r6 => some ([(String.mk key, v)], r6)
            | _ => none
        | _ => none
    | _ => none

/-- Parses the elements of a non-empty JSON array, positioned at the first
element. -/
def parseArrItems : Nat → List Char → Option (List JVal × List Char)
  | 0, _ => none
  | Nat.succ fuel, s =>
    match parseJVal fuel s with
    | none => none
    | some (v, r1) =>
      match skipWs r1 with
      | ',' :: r2 =>
        match parseArrItems fuel (skipWs r2) with
        | none => none
        | some (vs, r3) => some (v :: vs, r3)
      | ']' :: r2 => some ([v], r2)
      | _ => none

end

/-- Models `json.loads`: leading and trailing whitespace allowed, anything
else after the value is an error. -/
def jsonLoads (s : String) : Option JVal :=
  match parseJVal (2 * s.length + 2) (skipWs s.data) with
  | some (v, rest) => if skipWs rest = [] then some v else none
  | none => none

/-- Decoding pipeline of `_get_token_expiration_delay` up to `json.loads`:
take the token's middle dot-separated segment, append `"=="`, base64url-
decode, UTF-8-decode, parse JSON; `none` when any step raises. -/
def payloadJson (tok : String) : Option JVal :=
  match (splitDot tok.data)[1]? with
  | none => none
  | some segChars =>
    match urlsafe_b64decode (padSegment (String.mk segChars)) with
    | none => none
    | some bytes =>
      match utf8Decode bytes with
      | none => none
      | some chars => jsonLoads (String.mk chars)

/-- Acceptance and value of `datetime.fromtimestamp(x, timezone.utc)` on the
result of `.get("exp")`: Python accepts bools (as the integers 0 and 1) and
numbers representable as a `datetime` (years 1 to 9999, i.e. timestamps in
`[-62135596800, 253402300800)`); `None`, strings, containers, `NaN` and the
infinities raise.  CPython's rounding of float timestamps to microseconds is
not modelled; values are exact.  The range test is performed on the fraction
`n / d` by cross-multiplication (`d > 0` by construction). -/
def fromtimestampUtc (v : JVal) : Option PyNum :=
  match v with
  | .bool b => some ⟨if b then 1 else 0, 1⟩
  | .num x =>
    if -62135596800 * (x.d : Int) ≤ x.n ∧ x.n < 253402300800 * (x.d : Int) then some x
    else none
  | _ => none

/-- Models `OCISessionManager._get_token_expiration_delay`: 0 when no token
is loaded; otherwise decodes the payload, reads `exp`, converts it through
`datetime.fromtimestamp`, and returns `max(exp - now, 0)`; every failure
along the way is caught and yields 0.  `now` is the current Unix time in
whole seconds; the delay `exp - now` is the fraction
`(e.n - now * e.d) / e.d`, clamped at 0 as in the code's `max(..., 0)`. -/
def get_token_expiration_delay (security_token : Option String) (now : Int) : Rat :=
  match security_token with
  | none => 0
  | some tok =>
    match payloadJson tok with
    | some (.obj fields) =>
      match lookupLast fields "exp" with
      | some v =>
        match fromtimestampUtc v with
        | some e =>
          if e.n - now * (e.d : Int) ≤ 0 then 0 else mkRat (e.n - now * (e.d : Int)) e.d
        | none => 0
      | none => 0
    | _ => 0

/-- Alphabet of unpadded base64url data. -/
def b64UrlChar (c : Char) : Bool :=
  "ABCDEFGHIJKLMNOPQRSTUVWXYZabcdefghijklmnopqrstuvwxyz0123456789-_".data.contains c

/-- Poll loop of `OCIBastionSessions._generate_bastion_session`: starting
from the state of the freshly created session, while the state is
`"CREATING"` and the slept time is under `_max_sleep_time` (60), sleep
`_sleep_time` (5) seconds, re-fetch the session and add 5 to the counter.
`fetches` scripts the lifecycle state returned by each `get_session` call;
`none` marks a run that needed more fetches than were scripted.  The result
is the final observed state and the number of polls (re-fetches). -/
def pollGo : List String → String → Nat → Nat → Option (String × Nat)
  | fetches, state, sleep_time, polls =>
    if state = "CREATING" ∧ sleep_time < 60 then
      match fetches with
      | [] => none
      | f :: rest => pollGo rest f (sleep_time + 5) (polls + 1)
    else some (state, polls)

/-- Poll loop entry: `sleep_time` starts at 0 and no poll has happened. -/
def pollSession (s0 : String) (fetches : List String) : Option (String × Nat) :=
  pollGo fetches s0 0 0

/-- After the poll loop, `_generate_bastion_session` sets `success = True`
exactly when the final observed lifecycle state is `"ACTIVE"`; any other
state raises `ServiceError`, which the surrounding handler catches, leaving
`success = False`.  The pair is the success flag and the poll count. -/
def sessionOutcome (s0 : String) (fetches : List String) : Option (Bool × Nat) :=
  (pollSession s0 fetches).map fun r => (r.1 == "ACTIVE", r.2)

theorem foldl_setConnected_notifications (vs : List Bool) (st : ConnState) :
    (vs.foldl setConnected st).notifications = st.notifications + changeCount st.connected vs := by
  induction vs generalizing st with
  | nil => simp [changeCount]
  | cons v vs ih =>
    by_cases h : v = st.connected
    · subst h
      have hset : setConnected st st.connected = st := by
        simp [setConnected]
      simp [List.foldl_cons, hset, ih st, changeCount]
    · have hset : setConnected st v = ⟨v, st.notifications + 1⟩ := by
        simp [setConnected]
        intro hc
        exact absurd hc.symm h
      have := ih ⟨v, st.notifications + 1⟩
      simp [List.foldl_cons, hset, changeCount, h] at this ⊢
      omega

/-- C2: with `max_retries = 3` and `retry_count = 0`, if every launch exits
with the same non-empty stderr that lacks the permission signature and
`should_reconnect` stays true, `connect` makes exactly 4 launch attempts
(initial + 3 retries), sleeps `check_interval` exactly 3 times (once between
each pair of consecutive attempts), and stops as a terminal budget failure,
whatever outcomes would have followed. -/
theorem c2_four_attempts_then_budget_stop (msg : String) (rest : List LaunchOutcome)
    (hmsg : msg ≠ "")
    (hperm : strContainsSub msg "Permission denied" = false) :
    connect 3 0 (.exited msg :: .exited msg :: .exited msg :: .exited msg :: rest) =
      ⟨4, 3, 4, .budget⟩ := by
  simp [connect, run_ssh, hmsg, hperm]

theorem c2_four_attempts_then_budget_stop_witness :
    ("Connection reset by peer" ≠ "") ∧
    (strContainsSub "Connection reset by peer" "Permission denied" = false) ∧
    connect 3 0 [.exited "Connection reset by peer", .exited "Connection reset by peer",
      .exited "Connection reset by peer", .exited "Connection reset by peer"] =
      ⟨4, 3, 4, .budget⟩ :=
  ⟨by decide, by decide,
    c2_four_attempts_then_budget_stop "Connection reset by peer" [] (by decide) (by decide)⟩

/-- C3: whatever the retry budget, if the first launch's stderr holds
"Permission denied" then `connect` performs exactly 1 launch attempt, resets
`_retry_count` to 0 and breaks out of the loop with no sleep and no retry. -/
theorem c3_permission_denied_single_attempt (max_retries : Nat) (msg : String)
    (rest : List LaunchOutcome)
    (hperm : strContainsSub msg "Permission denied" = true) :
    connect max_retries 0 (.exited msg :: rest) = ⟨1, 0, 0, .broke⟩ := by
  have hmsg : msg ≠ "" := by
    intro h
    rw [h] at hperm
    simp [strContainsSub, subList, String.isEmpty] at hperm
  simp [connect, run_ssh, hmsg, hperm]

theorem c3_permission_denied_single_attempt_witness :
    (strContainsSub "user@host: Permission denied (publickey)." "Permission denied" = true) ∧
    connect 3 0 [.exited "user@host: Permission denied (publickey).",
      .exited "user@host: Permission denied (publickey)."] = ⟨1, 0, 0, .broke⟩ :=
  ⟨by decide,
    c3_permission_denied_single_attempt 3 "user@host: Permission denied (publickey)."
      [.exited "user@host: Permission denied (publickey)."] (by decide)⟩

/-- C4: evaluation of the code at the failing input.  A cycle with
`max_retries = 3` that exhausts its budget ends with `_retry_count = 4`, and
since `connect()` never resets `_retry_count`, the next `connect()` call's
worker loop finds its guard false and performs zero launch attempts — the
claim's promised fresh cycle with at least one attempt never happens. -/
theorem c4_code_eval :
    (connect 3 0 (List.replicate 4 (.exited "Connection reset by peer"))).retry_count = 4 ∧
    (connect 3 0 (List.replicate 4 (.exited "Connection reset by peer"))).reason = .budget ∧
    connect 3 4 [.exited "Connection reset by peer"] = ⟨0, 0, 4, .guardFalse⟩ :=
  ⟨rfl, rfl, rfl⟩

/-- C10: the connected-state setter is a no-op producing no notification when
the assigned value equals the current one, notifies exactly once on every
actual change, and over any sequence of assignments notifies exactly once per
actual value transition. -/
theorem c10_setter_notifies_once_per_transition (st : ConnState) (vs : List Bool) :
    (setConnected st st.connected = st) ∧
    (∀ v, v ≠ st.connected → (setConnected st v).notifications = st.notifications + 1) ∧
    (vs.foldl setConnected st).notifications = st.notifications + changeCount st.connected vs := by
  refine ⟨by simp [setConnected], ?_, foldl_setConnected_notifications vs st⟩
  intro v hv
  have hne : ¬ (st.connected = v) := fun hc => hv hc.symm
  simp [setConnected, hne]

theorem c10_setter_notifies_once_per_transition_witness :
    (setConnected ⟨false, 0⟩ false = ⟨false, 0⟩) ∧
    ((setConnected ⟨false, 0⟩ true).notifications = 0 + 1) ∧
    (([true, true, false] : List Bool).foldl setConnected ⟨false, 0⟩).notifications =
      0 + changeCount false [true, true, false] :=
  ⟨(c10_setter_notifies_once_per_transition ⟨false, 0⟩ [true, true, false]).1,
    (c10_setter_notifies_once_per_transition ⟨false, 0⟩ [true, true, false]).2.1 true (by decide),
    (c10_setter_notifies_once_per_transition ⟨false, 0⟩ [true, true, false]).2.2⟩

theorem foldl_fireTimer_renewals (evs : List (Nat × Bool)) (st : TMState)
    (h : st.auto_renew = false) :
    (evs.foldl fireTimer st).renewals = st.renewals ∧
      (evs.foldl fireTimer st).auto_renew = false := by
  induction evs generalizing st with
  | nil => exact ⟨rfl, h⟩
  | cons ev evs ih =>
    have hstep : (fireTimer st ev).renewals = st.renewals ∧
        (fireTimer st ev).auto_renew = false := by
      by_cases hm : ev.1 ∈ st.outstanding
      · simp [fireTimer, hm, renew_token, h]
      · simp [fireTimer, hm, h]
    have := ih (fireTimer st ev) hstep.2
    exact ⟨by rw [List.foldl_cons, this.1, hstep.1], by rw [List.foldl_cons, this.2]⟩

/-- C1 counterexample: from a state with no outstanding timer and an
unexpired token, two `start()` calls with no intervening `stop()` leave two
outstanding timers, not the exactly one the claim asserts —
`_schedule_token_renewal` never cancels the prior timer. -/
theorem c1_counterexample :
    ((start false true (start false true ⟨false, none, [], 0, 0⟩)).outstanding).length = 2 ∧
      ((start false true (start false true ⟨false, none, [], 0, 0⟩)).outstanding).length ≠ 1 := by
  constructor
  · rfl
  · decide

/-- C1 amended: calling `start()` twice without an intervening `stop()` while
the token is unexpired results in exactly two outstanding timers when none
was outstanding before: scheduling a new timer never cancels the prior one —
each `_schedule_token_renewal` adds one outstanding timer and merely
overwrites the `_timer` reference. -/
theorem c1_amended_two_timers_outstanding (st : TMState) (r1 r2 : Bool)
    (h : st.outstanding = []) :
    ((start false r2 (start false r1 st)).outstanding).length = 2 ∧
      ∀ s : TMState, ((schedule_token_renewal s).outstanding).length =
        s.outstanding.length + 1 := by
  constructor
  · simp [start, schedule_token_renewal, h]
  · intro s
    simp [schedule_token_renewal]

theorem c1_amended_two_timers_outstanding_witness :
    ((⟨false, none, [], 0, 0⟩ : TMState).outstanding = []) ∧
      ((start false true (start false true ⟨false, none, [], 0, 0⟩)).outstanding).length = 2 :=
  ⟨rfl, (c1_amended_two_timers_outstanding ⟨false, none, [], 0, 0⟩ true true rfl).1⟩

/-- C8: after `stop()`, no invocation of the token-renewal command happens,
whatever timers later fire (including leaked ones) and however their renewals
would have gone, until `start()` is called again: `stop()` clears
`_auto_renew` and `_renew_token` does nothing while it is clear. -/
theorem c8_no_renewal_after_stop (st : TMState) (evs : List (Nat × Bool)) :
    (evs.foldl fireTimer (stop st)).renewals = st.renewals ∧
      (evs.foldl fireTimer (stop st)).auto_renew = false := by
  have hstop : (stop st).auto_renew = false ∧ (stop st).renewals = st.renewals := by
    cases htr : st.timerRef <;> simp [stop, htr]
  have hfold := foldl_fireTimer_renewals evs (stop st) hstop.1
  exact ⟨by rw [hfold.1, hstop.2], hfold.2⟩

/-- C5: evaluation of the code at the failing inputs.  With the OCI CLI
present, `__init__` completes successfully — no error reaches the caller —
when the config file is missing, when the profile is missing, and when the
loaded profile lacks a `security_token_file` entry; the manager is left with
an empty (or token-less) config and `_security_token = None`.  This
contradicts the claim (and the methods' own docstrings, which say these
errors are raised). -/
theorem c5_code_eval :
    initManager ⟨true, .error .configFileNotFound, fun _ => none⟩ [] = .ok ⟨[], none⟩ ∧
      initManager ⟨true, .error .profileNotFound, fun _ => none⟩ [] = .ok ⟨[], none⟩ ∧
      initManager ⟨true, .ok [("region", "us-x-1")], fun _ => none⟩ [] =
        .ok ⟨[("region", "us-x-1")], none⟩ :=
  ⟨rfl, rfl, rfl⟩

theorem mkRat_eq_cast_div (n : Int) (d : Nat) : mkRat n d = (n : Rat) / (d : Rat) := by
  rw [Rat.mkRat_eq_divInt, Rat.divInt_eq_div]
  norm_num

theorem delay_eq_max_form (x : PyNum) (hd : 0 < x.d) (now : Int) :
    (if x.n - now * (x.d : Int) ≤ 0 then (0 : Rat)
      else mkRat (x.n - now * (x.d : Int)) x.d) =
    max (x.toRat - (now : Rat)) 0 := by
  have hdQ : (0 : Rat) < (x.d : Rat) := by exact_mod_cast hd
  have hval : x.toRat - (now : Rat) =
      ((x.n - now * (x.d : Int) : Int) : Rat) / (x.d : Rat) := by
    rw [PyNum.toRat, mkRat_eq_cast_div]
    push_cast
    field_simp
    ring
  by_cases h : x.n - now * (x.d : Int) ≤ 0
  · rw [if_pos h, hval]
    have hN : ((x.n - now * (x.d : Int) : Int) : Rat) ≤ 0 := by exact_mod_cast h
    exact (max_eq_right (div_nonpos_iff.mpr (Or.inr ⟨hN, hdQ.le⟩))).symm
  · rw [if_neg h, hval, mkRat_eq_cast_div]
    have hN : (0 : Rat) ≤ ((x.n - now * (x.d : Int) : Int) : Rat) := by
      exact_mod_cast (by omega : (0 : Int) ≤ x.n - now * (x.d : Int))
    exact (max_eq_left (div_nonneg hN hdQ.le)).symm

/-- C6 counterexample: the token `"h.eyJleHAiOjEwMDAwMDAwMDAwMDB9.s"` has the
syntactically valid JSON payload `{"exp":1000000000000}` with a numeric `exp`
claim, yet `timeToExpiry()` at `now = 0` returns 0 rather than the claimed
`max(exp - now, 0) = 10^12`: `datetime.fromtimestamp(10^12)` raises
("year 33658 is out of range") and the handler swallows it. -/
theorem c6_counterexample :
    payloadJson "h.eyJleHAiOjEwMDAwMDAwMDAwMDB9.s" =
      some (.obj [("exp", .num ⟨1000000000000, 1⟩)]) ∧
    get_token_expiration_delay (some "h.eyJleHAiOjEwMDAwMDAwMDAwMDB9.s") 0 = 0 ∧
    max ((⟨1000000000000, 1⟩ : PyNum).toRat - ((0 : Int) : Rat)) 0 ≠ 0 := by
  refine ⟨rfl, rfl, ?_⟩
  rw [PyNum.toRat, mkRat_eq_cast_div]
  norm_num

/-- C6 amended: `timeToExpiry()` returns 0 when no token is loaded and
whenever any decode step fails (bad segment/base64/UTF-8/JSON, non-object
payload, missing `exp`, or an `exp` that `datetime.fromtimestamp` rejects —
including numeric values outside the representable range
`-62135596800 ≤ exp < 253402300800`); it returns `max(exp - now, 0)` for a
numeric `exp` inside that range, with a boolean `exp` coerced to the
timestamp 0 or 1 as Python's `bool` is an `int`. -/
theorem c6_amended_time_to_expiry (tok : String) (now : Int) :
    (get_token_expiration_delay none now = 0) ∧
    (payloadJson tok = none → get_token_expiration_delay (some tok) now = 0) ∧
    (∀ fields x, payloadJson tok = some (.obj fields) →
      lookupLast fields "exp" = some (.num x) → 0 < x.d →
      -62135596800 * (x.d : Int) ≤ x.n → x.n < 253402300800 * (x.d : Int) →
      get_token_expiration_delay (some tok) now = max (x.toRat - (now : Rat)) 0) ∧
    (∀ fields x, payloadJson tok = some (.obj fields) →
      lookupLast fields "exp" = some (.num x) →
      ¬ (-62135596800 * (x.d : Int) ≤ x.n ∧ x.n < 253402300800 * (x.d : Int)) →
      get_token_expiration_delay (some tok) now = 0) ∧
    (∀ fields b, payloadJson tok = some (.obj fields) →
      lookupLast fields "exp" = some (.bool b) →
      get_token_expiration_delay (some tok) now =
        max ((⟨if b then 1 else 0, 1⟩ : PyNum).toRat - (now : Rat)) 0) ∧
    (∀ fields, payloadJson tok = some (.obj fields) →
      (∀ v, lookupLast fields "exp" = some v → fromtimestampUtc v = none) →
      get_token_expiration_delay (some tok) now = 0) ∧
    (∀ v, payloadJson tok = some v → (∀ fields, v ≠ .obj fields) →
      get_token_expiration_delay (some tok) now = 0) := by
  refine ⟨rfl, ?_, ?_, ?_, ?_, ?_, ?_⟩
  · intro h
    simp [get_token_expiration_delay, h]
  · intro fields x hp hl hd h1 h2
    simp only [get_token_expiration_delay, hp, hl, fromtimestampUtc, h1, h2,
      and_self, if_true]
    exact delay_eq_max_form x hd now
  · intro fields x hp hl hno
    rw [neg_mul] at hno
    simp [get_token_expiration_delay, hp, hl, fromtimestampUtc, hno]
  · intro fields b hp hl
    simp only [get_token_expiration_delay, hp, hl, fromtimestampUtc]
    exact delay_eq_max_form ⟨if b then 1 else 0, 1⟩ (by norm_num) now
  · intro fields hp hall
    cases hv : lookupLast fields "exp" with
    | none => simp [get_token_expiration_delay, hp, hv]
    | some v => simp [get_token_expiration_delay, hp, hv, hall v hv]
  · intro v hp hne
    cases v with
    | obj fields => exact absurd rfl (hne fields)
    | null => simp [get_token_expiration_delay, hp]
    | bool b => simp [get_token_expiration_delay, hp]
    | num x => simp [get_token_expiration_delay, hp]
    | nan => simp [get_token_expiration_delay, hp]
    | inf n => simp [get_token_expiration_delay, hp]
    | str s => simp [get_token_expiration_delay, hp]
    | arr xs => simp [get_token_expiration_delay, hp]

theorem c6_amended_time_to_expiry_witness :
    get_token_expiration_delay (some "h.eyJleHAiOjEwMH0.s") 40 =
      max ((⟨100, 1⟩ : PyNum).toRat - ((40 : Int) : Rat)) 0 :=
  (c6_amended_time_to_expiry "h.eyJleHAiOjEwMH0.s" 40).2.2.1
    [("exp", .num ⟨100, 1⟩)] ⟨100, 1⟩ rfl rfl (by decide) (by decide) (by decide)

theorem b64Val_urlTr_isSome (c : Char) (h : b64UrlChar c = true) :
    (b64Val (urlTr c)).isSome = true := by
  have hm : c ∈
      "ABCDEFGHIJKLMNOPQRSTUVWXYZabcdefghijklmnopqrstuvwxyz0123456789-_".data := by
    simpa [b64UrlChar] using h
  have hall : ∀ c2 ∈
      "ABCDEFGHIJKLMNOPQRSTUVWXYZabcdefghijklmnopqrstuvwxyz0123456789-_".data,
      (b64Val (urlTr c2)).isSome = true := by decide
  exact hall c hm

theorem a2bBase64_data_run (cs : List Char) :
    ∀ (tail : List Char) (qp lc : Nat) (acc : List Nat),
      (∀ c ∈ cs, (b64Val c).isSome = true) → qp < 4 →
      ∃ qp2 lc2 acc2,
        a2bBase64 (cs ++ tail) qp lc 0 acc = a2bBase64 tail qp2 lc2 0 acc2 ∧
          qp2 = (qp + cs.length) % 4 := by
  induction cs with
  | nil =>
    intro tail qp lc acc _ hqp
    exact ⟨qp, lc, acc, rfl, (Nat.mod_eq_of_lt hqp).symm⟩
  | cons c cs ih =>
    intro tail qp lc acc hall hqp
    have hc : (b64Val c).isSome = true := hall c (List.mem_cons_self c cs)
    obtain ⟨v, hv⟩ := Option.isSome_iff_exists.mp hc
    have hne : ¬ (c = '=') := by
      intro h
      rw [h] at hv
      have hnone : b64Val '=' = none := by decide
      rw [hnone] at hv
      exact Option.noConfusion hv
    have hall2 : ∀ c2 ∈ cs, (b64Val c2).isSome = true :=
      fun c2 h2 => hall c2 (List.mem_cons_of_mem _ h2)
    have hcases : qp = 0 ∨ qp = 1 ∨ qp = 2 ∨ qp = 3 := by omega
    rcases hcases with h | h | h | h <;> subst h
    · obtain ⟨qp2, lc2, acc2, heq, hm⟩ := ih tail 1 v acc hall2 (by omega)
      refine ⟨qp2, lc2, acc2, ?_, by simp only [List.length_cons]; omega⟩
      rw [List.cons_append]
      have hstep : a2bBase64 (c :: (cs ++ tail)) 0 lc 0 acc =
          a2bBase64 (cs ++ tail) 1 v 0 acc := by
        simp [a2bBase64, hne, hv]
      rw [hstep, heq]
    · obtain ⟨qp2, lc2, acc2, heq, hm⟩ :=
        ih tail 2 (v % 16) ((lc * 4 + v / 16) :: acc) hall2 (by omega)
      refine ⟨qp2, lc2, acc2, ?_, by simp only [List.length_cons]; omega⟩
      rw [List.cons_append]
      have hstep : a2bBase64 (c :: (cs ++ tail)) 1 lc 0 acc =
          a2bBase64 (cs ++ tail) 2 (v % 16) 0 ((lc * 4 + v / 16) :: acc) := by
        simp [a2bBase64, hne, hv]
      rw [hstep, heq]
    · obtain ⟨qp2, lc2, acc2, heq, hm⟩ :=
        ih tail 3 (v % 4) ((lc * 16 + v / 4) :: acc) hall2 (by omega)
      refine ⟨qp2, lc2, acc2, ?_, by simp only [List.length_cons]; omega⟩
      rw [List.cons_append]
      have hstep : a2bBase64 (c :: (cs ++ tail)) 2 lc 0 acc =
          a2bBase64 (cs ++ tail) 3 (v % 4) 0 ((lc * 16 + v / 4) :: acc) := by
        simp [a2bBase64, hne, hv]
      rw [hstep, heq]
    · obtain ⟨qp2, lc2, acc2, heq, hm⟩ :=
        ih tail 0 0 ((lc * 64 + v) :: acc) hall2 (by omega)
      refine ⟨qp2, lc2, acc2, ?_, by simp only [List.length_cons]; omega⟩
      rw [List.cons_append]
      have hstep : a2bBase64 (c :: (cs ++ tail)) 3 lc 0 acc =
          a2bBase64 (cs ++ tail) 0 0 0 ((lc * 64 + v) :: acc) := by
        simp [a2bBase64, hne, hv]
      rw [hstep, heq]

theorem a2bBase64_pads_ok (qp lc : Nat) (acc : List Nat)
    (hqp : qp = 0 ∨ qp = 2 ∨ qp = 3) :
    (a2bBase64 ['=', '='] qp lc 0 acc).isSome = true := by
  rcases hqp with h | h | h <;> subst h <;> simp [a2bBase64]

/-- C7 counterexample: for the 15-character segment of the token with
payload `{"exp":100}`, the string the code hands to the decoder —
`segment + "=="` — has 17 characters, length ≡ 1 (mod 4): the code does not
pad the segment to a multiple of 4 bytes, it always appends exactly two
`=`; the decode nevertheless succeeds. -/
theorem c7_counterexample :
    (padSegment "eyJleHAiOjEwMH0").length % 4 = 1 ∧
    urlsafe_b64decode (padSegment "eyJleHAiOjEwMH0") =
      some [123, 34, 101, 120, 112, 34, 58, 49, 48, 48, 125] :=
  ⟨rfl, rfl⟩

/-- C7 amended: `timeToExpiry()` appends exactly two `=` characters to the
middle segment before base64url-decoding (yielding a multiple of 4 only when
the segment length ≡ 2 mod 4), and the decode step succeeds for every middle
segment that is valid unpadded base64url — all characters in the base64url
alphabet and length ≢ 1 (mod 4) — because the decoder ignores surplus
padding. -/
theorem c7_amended_pad_decode_succeeds (s : String)
    (hvalid : ∀ c ∈ s.data, b64UrlChar c = true)
    (hlen : s.length % 4 ≠ 1) :
    (urlsafe_b64decode (padSegment s)).isSome = true := by
  have hdata : (urlsafeTranslate (padSegment s)).data =
      s.data.map urlTr ++ ['=', '='] := by
    show ((s ++ "==").data.map urlTr) = s.data.map urlTr ++ ['=', '=']
    rw [String.data_append, List.map_append]
    rfl
  unfold urlsafe_b64decode
  rw [hdata]
  have hall : ∀ c ∈ s.data.map urlTr, (b64Val c).isSome = true := by
    intro c hc
    obtain ⟨c0, hc0, rfl⟩ := List.mem_map.mp hc
    exact b64Val_urlTr_isSome c0 (hvalid c0 hc0)
  obtain ⟨qp2, lc2, acc2, heq, hm⟩ :=
    a2bBase64_data_run (s.data.map urlTr) ['=', '='] 0 0 [] hall (by omega)
  rw [heq]
  apply a2bBase64_pads_ok
  have hlen2 : (s.data.map urlTr).length = s.length := by
    rw [List.length_map]
    rfl
  rw [hlen2] at hm
  omega

theorem c7_amended_pad_decode_succeeds_witness :
    (∀ c ∈ ("QQ" : String).data, b64UrlChar c = true) ∧
    ("QQ" : String).length % 4 ≠ 1 ∧
    (urlsafe_b64decode (padSegment "QQ")).isSome = true :=
  ⟨by decide, by decide, c7_amended_pad_decode_succeeds "QQ" (by decide) (by decide)⟩

theorem pollGo_spec (fetches : List String) :
    ∀ (state : String) (polls : Nat) (st : String) (n : Nat),
      polls ≤ 12 →
      pollGo fetches state (5 * polls) polls = some (st, n) →
      n ≤ 12 ∧ (st = "CREATING" → n = 12) := by
  induction fetches with
  | nil =>
    intro state polls st n hp h
    simp only [pollGo] at h
    by_cases hg : state = "CREATING" ∧ 5 * polls < 60
    · rw [if_pos hg] at h
      simp at h
    · rw [if_neg hg] at h
      simp only [Option.some.injEq, Prod.mk.injEq] at h
      obtain ⟨h1, h2⟩ := h
      subst h1
      subst h2
      refine ⟨hp, fun hc => ?_⟩
      rw [not_and_or] at hg
      rcases hg with hg | hg
      · exact absurd hc hg
      · omega
  | cons f rest ih =>
    intro state polls st n hp h
    simp only [pollGo] at h
    by_cases hg : state = "CREATING" ∧ 5 * polls < 60
    · rw [if_pos hg] at h
      rw [show 5 * polls + 5 = 5 * (polls + 1) from by ring] at h
      exact ih f (polls + 1) st n (by omega) h
    · rw [if_neg hg] at h
      simp only [Option.some.injEq, Prod.mk.injEq] at h
      obtain ⟨h1, h2⟩ := h
      subst h1
      subst h2
      refine ⟨hp, fun hc => ?_⟩
      rw [not_and_or] at hg
      rcases hg with hg | hg
      · exact absurd hc hg
      · omega

/-- C9: along any completed poll run, the number of polls never exceeds 12; a
run whose final state is still `"CREATING"` (a timeout) performed exactly 12
polls; provisioning success is exactly the final state being `"ACTIVE"`; and
concretely, a session that answers `"CREATING"` to every fetch yields a
failure, never a false success, after exactly 12 polls. -/
theorem c9_poll_loop_timeout_and_success (s0 : String) (fetches : List String) :
    (∀ st n, pollSession s0 fetches = some (st, n) →
      n ≤ 12 ∧ (st = "CREATING" → n = 12) ∧
      sessionOutcome s0 fetches = some (st == "ACTIVE", n)) ∧
    sessionOutcome "CREATING" (List.replicate 12 "CREATING") = some (false, 12) := by
  constructor
  · intro st n h
    have h0 : pollGo fetches s0 (5 * 0) 0 = some (st, n) := by
      simpa [pollSession] using h
    have hspec := pollGo_spec fetches s0 0 st n (by omega) h0
    exact ⟨hspec.1, hspec.2, by simp [sessionOutcome, h]⟩
  · decide

theorem c9_poll_loop_timeout_and_success_witness :
    (1 ≤ 12 ∧ (("ACTIVE" : String) = "CREATING" → 1 = 12) ∧
      sessionOutcome "CREATING" ["ACTIVE"] = some (("ACTIVE" : String) == "ACTIVE", 1)) ∧
    sessionOutcome "CREATING" (List.replicate 12 "CREATING") = some (false, 12) :=
  ⟨(c9_poll_loop_timeout_and_success "CREATING" ["ACTIVE"]).1 "ACTIVE" 1 (by decide),
    (c9_poll_loop_timeout_and_success "CREATING" ["ACTIVE"]).2⟩
